import Mathlib

/-
Verification of the docstring-parsing subsystem of Tan-chan
(src/tanchan/doc_parse.py) against its natural-language specification.

The Python module is shallowly embedded: each private helper of
doc_parse.py is translated into an executable Lean definition over
lists of characters and lists of lines.  Python dicts become
association lists whose insert keeps the position of an existing key
(Python dict semantics), regular expressions are translated into
hand-written matchers that are faithful to the exact pattern used in
the source (including greediness and backtracking behaviour, analysed
pattern by pattern), and Python exceptions become explicit error
values.  Inputs are ASCII, matching the test-suite of the repository,
so the ASCII fragments of str.lower, str.strip and the regex class \w
are modelled.
-/

namespace Tanchan

/-! ## Character and string helpers (models of Python str methods) -/

/-- Whitespace stripped by Python str.strip / str.rstrip for the ASCII
inputs used by this module. -/
def isPyWs (c : Char) : Bool :=
  c = ' ' || c = '\t' || c = '\n' || c = '\r'

/-- Characters matched by the regex class \w (ASCII fragment). -/
def isWordChar (c : Char) : Bool :=
  ('a' ≤ c && c ≤ 'z') || ('A' ≤ c && c ≤ 'Z') || ('0' ≤ c && c ≤ '9') || c = '_'

/-- Model of Python str.strip on a character list. -/
def stripList (cs : List Char) : List Char :=
  ((cs.dropWhile isPyWs).reverse.dropWhile isPyWs).reverse

/-- Model of Python str.strip. -/
def pyStrip (s : String) : String :=
  String.mk (stripList s.data)

/-- Model of Python str.rstrip. -/
def pyRstrip (s : String) : String :=
  String.mk (s.data.reverse.dropWhile isPyWs).reverse

/-- Model of Python str.lower (ASCII fragment, via Char.toLower). -/
def pyLower (s : String) : String :=
  String.mk (s.data.map Char.toLower)

/-- Model of Python str.removesuffix: drops suf from the end of s when
s ends with suf (an empty suffix leaves s unchanged, as in Python). -/
def pyDropSuffix (s suf : String) : String :=
  if suf.data.isSuffixOf s.data then String.mk (s.data.take (s.data.length - suf.data.length))
  else s

/-- Model of Python str.removeprefix. -/
def pyDropPre (s pre : String) : String :=
  if pre.data.isPrefixOf s.data then String.mk (s.data.drop pre.data.length)
  else s

/-- Helper for pySplitlines: acc holds the current line reversed. -/
def splitAux (acc : List Char) : List Char → List String
  | [] => if acc.isEmpty then [] else [String.mk acc.reverse]
  | c :: rest =>
    if c = '\n' then String.mk acc.reverse :: splitAux [] rest
    else splitAux (c :: acc) rest

/-- Model of Python str.splitlines for texts whose only line break is
the newline character (the only break used by this module's inputs).
A trailing newline does not produce a trailing empty line. -/
def pySplitlines (s : String) : List String :=
  splitAux [] s.data

/-- Model of `_line_empty`: `not line.strip()`. -/
def lineEmpty (line : String) : Bool :=
  (stripList line.data).isEmpty

/-- Python list indexing for the index expressions of `_parse_numpy`:
a negative index counts from the end of the list.  In `_parse_numpy`
every evaluated index is in bounds (shown by case analysis on the
loop: `index - 2` is only read when a start index is already set,
which forces `index ≥ 1`), so the default is never returned. -/
def pyGet (l : List String) (i : Int) : String :=
  if i < 0 then l.getD (l.length - i.natAbs) "" else l.getD i.toNat ""

/-- Python slice `l[a:b]` with possibly negative bounds. -/
def pySlice (l : List String) (a b : Int) : List String :=
  let n : Int := l.length
  let norm : Int → Nat := fun i => (min n (max 0 (if i < 0 then n + i else i))).toNat
  (l.take (norm b)).drop (norm a)

/-- Python slice `l[a:b]` with natural bounds. -/
def pySliceNat (l : List String) (a b : Nat) : List String :=
  (l.take b).drop a

/-- Model of `" ".join(fragments)`. -/
def joinSpaces : List String → String
  | [] => ""
  | [x] => x
  | x :: xs => x ++ " " ++ joinSpaces xs

/-! ## Dictionaries (Python dict as an insertion-ordered association list) -/

/-- The name-to-description mapping built by the scanners.  Inserting
an existing key updates its value in place, keeping the original
position, exactly as a Python dict does. -/
abbrev Dict := List (String × String)

/-- `d[k] = v` on a Python dict. -/
def dictInsert (d : Dict) (k v : String) : Dict :=
  match d with
  | [] => [(k, v)]
  | (k', v') :: rest => if k' = k then (k, v) :: rest else (k', v') :: dictInsert rest k v

/-- `d.get(k)` on a Python dict. -/
def dictLookup : Dict → String → Option String
  | [], _ => none
  | (k, v) :: rest, n => if k = n then some v else dictLookup rest n

/-- `d1.update(d2)` on Python dicts. -/
def dictUpdate (d1 d2 : Dict) : Dict :=
  d2.foldl (fun acc kv => dictInsert acc kv.1 kv.2) d1

/-! ## `_terminate_line` and `_Descriptions.collect` -/

/-- Model of `_terminate_line`: when the fragment buffer is non-empty
its first element is the entry name and the rest, joined by single
spaces, is the description. -/
def terminate_line (d : Dict) (cur : List String) : Dict :=
  match cur with
  | [] => d
  | name :: rest => dictInsert d name (joinSpaces rest)

/-- The description fragment seeded from the trailing regex capture of
an entry line: its stripped text when non-empty, nothing otherwise
(and nothing when the pattern has a single capture group, as the
Numpy entry pattern does). -/
def descSeed : Option String → List String
  | some e => if pyStrip e = "" then [] else [pyStrip e]
  | none => []

/-- The fragment buffer right after an entry line is recognised:
the captured name followed by the seeded description fragment. -/
def entrySeed (name : String) (extra : Option String) : List String :=
  name :: descSeed extra

/-- Loop of `_Descriptions.collect`, parameterised by the entry
matcher (the compiled regex of the style).  A non-matching line is a
continuation: its stripped text is appended to the fragment buffer.
A matching line flushes the buffer via `terminate_line` and starts a
new one. -/
def collectGo (m : String → Option (String × Option String)) :
    Dict → List String → List String → Dict
  | d, cur, [] => terminate_line d cur
  | d, cur, line :: rest =>
    match m line with
    | none => collectGo m d (cur ++ [pyStrip line]) rest
    | some (name, extra) => collectGo m (terminate_line d cur) (entrySeed name extra) rest

/-- Model of `_Descriptions.collect` (the fragment buffer starts empty
on each call; the dictionary persists across calls). -/
def collect (m : String → Option (String × Option String)) (d : Dict)
    (lines : List String) : Dict :=
  collectGo m d [] lines

/-! ## Entry-line matchers (models of the three compiled regexes)

Each matcher realises the exact semantics of re.search / re.match of
the corresponding pattern on a single line (lines contain no newline
character). -/

/-- Text after the last colon of a character list, when a colon is
present: the position `.*:` backtracks to in `_GOOGLE_PATTERN`. -/
def lastColonTail : List Char → Option (List Char)
  | [] => none
  | c :: rest =>
    match lastColonTail rest with
    | some t => some t
    | none => if c = ':' then some rest else none

/-- Search loop of `_GOOGLE_PATTERN.search`, pattern `(\w+).*:(.*)$`:
the match starts at the first word character; the first group is the
maximal word run there; the greedy `.*:` requires a colon at or after
the end of that run and takes the last one; the second group is the
remainder of the line.  When no colon follows the first word run no
later start can succeed either (a later run ends no earlier), so the
whole search fails. -/
def googleScan : List Char → Option (String × Option String)
  | [] => none
  | c :: rest =>
    if isWordChar c then
      match lastColonTail ((c :: rest).dropWhile isWordChar) with
      | some tail => some (String.mk ((c :: rest).takeWhile isWordChar), some (String.mk tail))
      | none => none
    else googleScan rest

/-- Model of `_GOOGLE_PATTERN.search(line)` restricted to the data the
collector reads: group 1 and group 2. -/
def googleMatch (line : String) : Option (String × Option String) :=
  googleScan line.data

/-- Model of `_NUMPY_PATTERN.search(line)`, pattern
`^(\w+)(?: *:.+)?$`: the whole line is a word run, or a word run
followed by spaces, a colon and at least one further character.  The
second part is a non-capturing group, so only the name is returned
(`groups()` has length 1 in the source). -/
def numpyMatch (line : String) : Option (String × Option String) :=
  let cs := line.data
  let w := cs.takeWhile isWordChar
  if w.isEmpty then none
  else
    match cs.dropWhile isWordChar with
    | [] => some (String.mk w, none)
    | rest =>
      match rest.dropWhile (· = ' ') with
      | ':' :: tail => if tail.isEmpty then none else some (String.mk w, none)
      | _ => none

/-- Model of `_REST_PATTERN.match(line)`, pattern
`^:(\w+) (\w+):(.*)$`: a leading colon, a word run (the field
category), one space, a word run (the name), a colon, then the rest of
the line. -/
def restMatch (line : String) : Option (String × String × String) :=
  match line.data with
  | ':' :: rest =>
    let w1 := rest.takeWhile isWordChar
    if w1.isEmpty then none
    else
      match rest.dropWhile isWordChar with
      | ' ' :: rest2 =>
        let w2 := rest2.takeWhile isWordChar
        if w2.isEmpty then none
        else
          match rest2.dropWhile isWordChar with
          | ':' :: rest3 => some (String.mk w1, String.mk w2, String.mk rest3)
          | _ => none
      | _ => none
  | _ => none

/-! ## `_parse_google` -/

/-- One iteration of the `_parse_google` loop at position idx: an
`args:` header line (lowered then stripped) sets the section start to
the next line; then, if a section is open and the line is blank, the
section lines are collected and the section is closed. -/
def googleStep (lines : List String) (st : Option Nat × Dict) (idx : Nat) :
    Option Nat × Dict :=
  let line := lines.getD idx ""
  let start := if pyStrip (pyLower line) = "args:" then some (idx + 1) else st.1
  match start with
  | some s =>
    if lineEmpty line then (none, collect googleMatch st.2 (pySliceNat lines s idx))
    else (some s, st.2)
  | none => (none, st.2)

/-- Model of `_parse_google`: the indexed loop, then the tail collect
`lines[start_index : len(lines)]` when a section is still open. -/
def parse_google (lines : List String) : Dict :=
  match (List.range lines.length).foldl (googleStep lines) (none, []) with
  | (some s, d) => collect googleMatch d (pySliceNat lines s lines.length)
  | (none, d) => d

/-! ## `_parse_numpy` -/

/-- A line that `startswith("-")` and whose dashes replace to the
empty string: non-empty and consisting solely of dashes. -/
def isDashRow (line : String) : Bool :=
  !line.data.isEmpty && line.data.all (· = '-')

/-- Model of `_dedent_lines`.  The computed indent is
`lines[0].removesuffix(lines[0].rstrip())`, which is the trailing
whitespace of the first line (the empty string when the first line has
none), and that indent is removed as a prefix of every line.  On an
empty list the Python code raises IndexError reading `lines[0]`;
that is the `none` case. -/
def dedent_lines : List String → Option (List String)
  | [] => none
  | l :: ls =>
    let indent := pyDropSuffix l (pyRstrip l)
    some ((l :: ls).map (fun x => pyDropPre x indent))

/-- One iteration of the `_parse_numpy` loop at position idx, on the
state `none` (an IndexError already escaped) or
`some (start_index, descriptions)`.  Only lines consisting solely of
dashes are acted on: with no open section, a preceding
parameters-style header (Python index `idx - 1`, which wraps to the
last line when idx is 0) opens a section after the dash row; with an
open section, an empty string directly above the dash row ends the
section before that blank, else a blank line two above ends it before
that blank; otherwise nothing happens.  The section slices go through
`_dedent_lines`, whose IndexError on an empty slice is propagated. -/
def numpyStep (lines : List String) (st : Option (Option Nat × Dict)) (idx : Nat) :
    Option (Option Nat × Dict) :=
  match st with
  | none => none
  | some (start, d) =>
    let line := lines.getD idx ""
    if !isDashRow line then some (start, d)
    else
      match start with
      | none =>
        let prev := pyStrip (pyLower (pyGet lines ((idx : Int) - 1)))
        if prev = "parameters" || prev = "other parameters" then some (some (idx + 1), d)
        else some (none, d)
      | some s =>
        if pyGet lines ((idx : Int) - 1) = "" then
          match dedent_lines (pySlice lines (s : Int) ((idx : Int) - 1)) with
          | none => none
          | some sec => some (none, collect numpyMatch d sec)
        else if lineEmpty (pyGet lines ((idx : Int) - 2)) then
          match dedent_lines (pySlice lines (s : Int) ((idx : Int) - 2)) with
          | none => none
          | some sec => some (none, collect numpyMatch d sec)
        else some (some s, d)

/-- Model of `_parse_numpy`: the indexed loop, then the tail collect
`lines[start_index : len(lines)]` (with no dedent) when a section is
still open.  `none` is a propagated IndexError. -/
def parse_numpy (lines : List String) : Option Dict :=
  match (List.range lines.length).foldl (numpyStep lines) (some (none, [])) with
  | none => none
  | some (some s, d) => some (collect numpyMatch d (pySliceNat lines s lines.length))
  | some (none, d) => some d

/-! ## `_parse_rest` -/

/-- Loop of `_parse_rest`: every line is matched against the ReST
pattern; a non-matching line is a continuation; a matching line always
flushes the open entry and, when its category is `param`, opens a new
entry seeded with the stripped trailing text. -/
def restGo (d : Dict) (cur : List String) : List String → Dict
  | [] => terminate_line d cur
  | line :: rest =>
    match restMatch line with
    | none => restGo d (cur ++ [pyStrip line]) rest
    | some (cat, name, desc) =>
      if cat = "param" then restGo (terminate_line d cur) (entrySeed name (some desc)) rest
      else restGo (terminate_line d cur) [] rest

/-- Model of `_parse_rest`. -/
def parse_rest (lines : List String) : Dict :=
  restGo [] [] lines

/-! ## `_get_docstyle` (style detection) -/

/-- The three recognised documentation styles. -/
inductive Docstyle
  | google
  | numpy
  | reST
deriving DecidableEq, Repr

/-- Characters matched by the regex class `[\t ]`. -/
def wsTabSpace (c : Char) : Bool :=
  c = ' ' || c = '\t'

/-- Drop the `[\t ]*` prefix. -/
def dropWsTS (cs : List Char) : List Char :=
  cs.dropWhile wsTabSpace

/-- Case-insensitive literal match (IGNORECASE on an ASCII pattern
that is already lower case), returning the rest on success. -/
def matchCI : List Char → List Char → Option (List Char)
  | [], cs => some cs
  | _ :: _, [] => none
  | l :: ls, c :: cs => if Char.toLower c = l then matchCI ls cs else none

/-- Exact literal match, returning the rest on success. -/
def matchLit : List Char → List Char → Option (List Char)
  | [], cs => some cs
  | _ :: _, [] => none
  | l :: ls, c :: cs => if c = l then matchLit ls cs else none

/-- The Google fingerprint after a newline: `[\t ]*args:\n`
(IGNORECASE). -/
def googleFingerAt (cs : List Char) : Bool :=
  match matchCI "args:".data (dropWsTS cs) with
  | some ('\n' :: _) => true
  | _ => false

/-- The Numpy fingerprint after a newline:
`[\t ]*parameters\n[\t ]*-+` (IGNORECASE). -/
def numpyFingerAt (cs : List Char) : Bool :=
  match matchCI "parameters".data (dropWsTS cs) with
  | none => false
  | some rest1 =>
    match rest1 with
    | [] => false
    | c :: rest2 =>
      c = '\n' &&
        (match dropWsTS rest2 with
         | [] => false
         | c2 :: _ => c2 = '-')

/-- The ReST fingerprint after a newline: `:param \w+:`. -/
def restFingerAt (cs : List Char) : Bool :=
  match matchLit ":param ".data cs with
  | some rest =>
    match rest.dropWhile isWordChar with
    | ':' :: _ => !(rest.takeWhile isWordChar).isEmpty
    | _ => false
  | none => false

/-- re.search for a pattern that begins with a literal newline: some
newline of the text is followed by the rest of the pattern. -/
def containsAfterNl (p : List Char → Bool) : List Char → Bool
  | [] => false
  | c :: rest => (if c = '\n' then p rest else false) || containsAfterNl p rest

/-- Search for the Google fingerprint `\n[\t ]*args:\n`. -/
def searchGoogleL (cs : List Char) : Bool :=
  containsAfterNl googleFingerAt cs

/-- Search for the Numpy fingerprint `\n[\t ]*parameters\n[\t ]*-+`. -/
def searchNumpyL (cs : List Char) : Bool :=
  containsAfterNl numpyFingerAt cs

/-- Search for the ReST fingerprint `\n:param \w+:`. -/
def searchRestL (cs : List Char) : Bool :=
  containsAfterNl restFingerAt cs

/-- Core of `_get_docstyle`: the ordered fingerprint table
`_MATCH_STYLE`, first match wins. -/
def getDocstyleCore (cs : List Char) : Option Docstyle :=
  if searchGoogleL cs then some .google
  else if searchNumpyL cs then some .numpy
  else if searchRestL cs then some .reST
  else none

/-- Model of `_get_docstyle`. -/
def get_docstyle (s : String) : Option Docstyle :=
  getDocstyleCore s.data

/-! ## `_parse_descriptions` (the orchestrator `extract`) -/

/-- `_PARSERS[style](lines)`.  The Numpy scanner can raise IndexError
(see `dedent_lines`), hence the Option. -/
def runScanner : Docstyle → List String → Option Dict
  | .google, ls => some (parse_google ls)
  | .numpy, ls => parse_numpy ls
  | .reST, ls => some (parse_rest ls)

/-- `doc_style or _get_docstyle(text)`. -/
def resolveStyle (style? : Option Docstyle) (text : String) : Option Docstyle :=
  match style? with
  | some st => some st
  | none => get_docstyle text

/-- Abstraction of a command callback as `_parse_descriptions` sees
it: `doc` is the result of `inspect.getdoc(callback)` and `groupDoc`
is the result of `inspect.getdoc` on the TypedDict unpacked into the
trailing `**kwargs` parameter, when the signature walk of
`_parse_descriptions` finds one (otherwise `none`).  The signature
walk itself (VAR_KEYWORD kind, `Unpack`, `is_typeddict`) is pure
introspection with no effect other than selecting this optional
documentation text, so it is represented by the optional field. -/
structure Callback where
  doc : Option String
  groupDoc : Option String

/-- The failures of `_parse_descriptions`, named after the error
taxonomy of the specification: `missingDocumentation` is
`ValueError("Callback has no doc string")`, `undeterminedStyle` is
`RuntimeError("Couldn't detect the docstring style")`, and
`indexError` is the IndexError escaping `_dedent_lines`. -/
inductive DocParseError
  | missingDocumentation
  | undeterminedStyle
  | indexError
deriving DecidableEq, Repr

/-- Equality of scanner outcomes is decidable, so concrete runs of
`extract` can be checked by evaluation. -/
instance {ε α : Type} [DecidableEq ε] [DecidableEq α] : DecidableEq (Except ε α) :=
  fun a b =>
    match a, b with
    | .ok x, .ok y =>
      if h : x = y then .isTrue (by rw [h])
      else .isFalse (fun hc => h (Except.ok.inj hc))
    | .error x, .error y =>
      if h : x = y then .isTrue (by rw [h])
      else .isFalse (fun hc => h (Except.error.inj hc))
    | .ok _, .error _ => .isFalse (fun hc => Except.noConfusion hc)
    | .error _, .ok _ => .isFalse (fun hc => Except.noConfusion hc)

/-- Step 1 of `_parse_descriptions`: seed the map from the nested
TypedDict documentation.  A missing or falsy text, or an undetermined
style, seeds nothing and is not fatal; a determined style runs its
scanner over all lines of the group text and the result updates the
empty starting dict. -/
def seedKwargs (cb : Callback) (style? : Option Docstyle) : Option Dict :=
  match cb.groupDoc with
  | none => some []
  | some g =>
    if g = "" then some []
    else
      match resolveStyle style? g with
      | none => some []
      | some st => (runScanner st (pySplitlines g)).map (fun r => dictUpdate [] r)

/-- Model of `_parse_descriptions` (the operation the specification
calls `extract`).  After step 1, a truthy callback docstring is split
into lines; with only the summary line the seeded map is returned as
is; otherwise the style is resolved (override first, detection
second): no style is fatal only when nothing was seeded, and a style
runs its scanner over the detail lines, the result overwriting seeded
entries.  A falsy docstring returns the seeded map, or fails when the
map is empty. -/
def extract (cb : Callback) (style? : Option Docstyle) : Except DocParseError Dict :=
  match seedKwargs cb style? with
  | none => .error .indexError
  | some kwargs =>
    match cb.doc with
    | some ds =>
      if ds = "" then
        if kwargs = [] then .error .missingDocumentation else .ok kwargs
      else
        let lines := (pySplitlines ds).drop 1
        if lines = [] then .ok kwargs
        else
          match resolveStyle style? ds with
          | none => if kwargs = [] then .error .undeterminedStyle else .ok kwargs
          | some st =>
            match runScanner st lines with
            | none => .error .indexError
            | some d2 => .ok (dictUpdate kwargs d2)
    | none => if kwargs = [] then .error .missingDocumentation else .ok kwargs

/-! ## Lemmas about the collector -/

/-- A run of non-matching lines only appends stripped continuation
fragments to the buffer. -/
theorem collectGo_append_of_none (m : String → Option (String × Option String)) :
    ∀ (ls1 : List String), (∀ l ∈ ls1, m l = none) → ∀ (d : Dict) (cur ls2 : List String),
    collectGo m d cur (ls1 ++ ls2) = collectGo m d (cur ++ ls1.map pyStrip) ls2 := by
  intro ls1
  induction ls1 with
  | nil => intro _ d cur ls2; simp
  | cons a t ih =>
    intro h d cur ls2
    have ha : m a = none := h a (List.mem_cons_self a t)
    simp only [List.cons_append, collectGo, ha, List.append_eq]
    rw [ih (fun l hl => h l (List.mem_cons_of_mem a hl)) d (cur ++ [pyStrip a]) ls2]
    simp

/-- When no line matches, collecting just flushes the buffer extended
with every stripped line. -/
theorem collectGo_all_none (m : String → Option (String × Option String))
    (ls : List String) (h : ∀ l ∈ ls, m l = none) (d : Dict) (cur : List String) :
    collectGo m d cur ls = terminate_line d (cur ++ ls.map pyStrip) := by
  have h2 := collectGo_append_of_none m ls h d cur []
  simpa [collectGo] using h2

/-- `restGo` analogue of `collectGo_append_of_none`. -/
theorem restGo_append_of_none :
    ∀ (ls1 : List String), (∀ l ∈ ls1, restMatch l = none) → ∀ (d : Dict) (cur ls2 : List String),
    restGo d cur (ls1 ++ ls2) = restGo d (cur ++ ls1.map pyStrip) ls2 := by
  intro ls1
  induction ls1 with
  | nil => intro _ d cur ls2; simp
  | cons a t ih =>
    intro h d cur ls2
    have ha : restMatch a = none := h a (List.mem_cons_self a t)
    simp only [List.cons_append, restGo, ha, List.append_eq]
    rw [ih (fun l hl => h l (List.mem_cons_of_mem a hl)) d (cur ++ [pyStrip a]) ls2]
    simp

/-- `restGo` analogue of `collectGo_all_none`. -/
theorem restGo_all_none (ls : List String) (h : ∀ l ∈ ls, restMatch l = none)
    (d : Dict) (cur : List String) :
    restGo d cur ls = terminate_line d (cur ++ ls.map pyStrip) := by
  have h2 := restGo_append_of_none ls h d cur []
  simpa [restGo] using h2

/-! ## Lemmas about splitlines -/

/-- On newline-free text, the splitlines helper returns the single
accumulated line. -/
theorem splitAux_no_nl :
    ∀ (cs acc : List Char), (∀ c ∈ cs, c ≠ '\n') → (acc ≠ [] ∨ cs ≠ []) →
    splitAux acc cs = [String.mk (acc.reverse ++ cs)] := by
  intro cs
  induction cs with
  | nil =>
    intro acc _ hne
    rcases hne with h1 | h2
    · simp [splitAux, h1]
    · exact absurd rfl h2
  | cons c t ih =>
    intro acc h hne
    have hc : ¬(c = '\n') := h c (List.mem_cons_self c t)
    simp only [splitAux, if_neg hc]
    rw [ih (c :: acc) (fun x hx => h x (List.mem_cons_of_mem c hx)) (Or.inl (by simp))]
    simp

/-- A non-empty newline-free string splits into itself alone. -/
theorem pySplitlines_single (s : String) (hs : s ≠ "") (h : ∀ c ∈ s.data, c ≠ '\n') :
    pySplitlines s = [s] := by
  obtain ⟨cs⟩ := s
  have hcs : cs ≠ [] := by
    intro he
    subst he
    exact hs rfl
  unfold pySplitlines
  rw [splitAux_no_nl cs [] h (Or.inr hcs)]
  simp

/-! ## Key uniqueness of the produced dictionaries -/

/-- The keys of a dictionary, in order. -/
def dictKeys : Dict → List String
  | [] => []
  | (k, _) :: rest => k :: dictKeys rest

/-- Inserting updates in place or appends a fresh key. -/
theorem dictKeys_insert (d : Dict) (k v : String) :
    dictKeys (dictInsert d k v) =
      if k ∈ dictKeys d then dictKeys d else dictKeys d ++ [k] := by
  induction d with
  | nil => simp [dictInsert, dictKeys]
  | cons p rest ih =>
    obtain ⟨k', v'⟩ := p
    by_cases hk : k' = k
    · subst hk
      simp [dictInsert, dictKeys]
    · have hk2 : ¬(k = k') := fun he => hk he.symm
      simp only [dictInsert, if_neg hk, dictKeys, ih, List.mem_cons]
      by_cases hm : k ∈ dictKeys rest
      · simp [hm]
      · simp [hm, hk2]

/-- Insertion preserves key uniqueness. -/
theorem nodup_dictInsert {d : Dict} (k v : String) (h : (dictKeys d).Nodup) :
    (dictKeys (dictInsert d k v)).Nodup := by
  rw [dictKeys_insert]
  by_cases hm : k ∈ dictKeys d
  · simpa [hm] using h
  · rw [if_neg hm, List.nodup_append]
    exact ⟨h, List.nodup_singleton k, fun a ha hb => by
      simp at hb
      subst hb
      exact hm ha⟩

/-- Flushing the buffer preserves key uniqueness. -/
theorem nodup_terminate {d : Dict} (cur : List String) (h : (dictKeys d).Nodup) :
    (dictKeys (terminate_line d cur)).Nodup := by
  cases cur with
  | nil => simpa [terminate_line] using h
  | cons name rest => exact nodup_dictInsert name (joinSpaces rest) h

/-- The collector preserves key uniqueness. -/
theorem nodup_collectGo (m : String → Option (String × Option String)) :
    ∀ (ls : List String) (d : Dict) (cur : List String),
    (dictKeys d).Nodup → (dictKeys (collectGo m d cur ls)).Nodup := by
  intro ls
  induction ls with
  | nil => intro d cur h; exact nodup_terminate cur h
  | cons a t ih =>
    intro d cur h
    cases ha : m a with
    | none =>
      simp only [collectGo, ha]
      exact ih d (cur ++ [pyStrip a]) h
    | some p =>
      obtain ⟨name, extra⟩ := p
      simp only [collectGo, ha]
      exact ih _ _ (nodup_terminate cur h)

/-- `collect` preserves key uniqueness. -/
theorem nodup_collect (m : String → Option (String × Option String)) (d : Dict)
    (ls : List String) (h : (dictKeys d).Nodup) : (dictKeys (collect m d ls)).Nodup :=
  nodup_collectGo m ls d [] h

/-- A fold preserves any invariant its step preserves. -/
theorem foldl_inv {α β : Type} (P : α → Prop) (f : α → β → α)
    (hf : ∀ a b, P a → P (f a b)) :
    ∀ (l : List β) (a : α), P a → P (l.foldl f a) := by
  intro l
  induction l with
  | nil => intro a h; simpa using h
  | cons b t ih => intro a h; rw [List.foldl_cons]; exact ih (f a b) (hf a b h)

/-- Each Google loop iteration preserves key uniqueness. -/
theorem nodup_googleStep (lines : List String) (st : Option Nat × Dict) (idx : Nat)
    (h : (dictKeys st.2).Nodup) : (dictKeys (googleStep lines st idx).2).Nodup := by
  unfold googleStep
  dsimp only
  split
  · split
    · exact nodup_collect googleMatch st.2 _ h
    · exact h
  · exact h

/-- `_parse_google` produces unique keys. -/
theorem nodup_parse_google (lines : List String) : (dictKeys (parse_google lines)).Nodup := by
  have h := foldl_inv (fun st : Option Nat × Dict => (dictKeys st.2).Nodup)
    (googleStep lines) (fun a b ha => nodup_googleStep lines a b ha)
    (List.range lines.length) (none, []) (by simp [dictKeys])
  rcases hf : (List.range lines.length).foldl (googleStep lines) (none, []) with ⟨a, d⟩
  rw [hf] at h
  cases a with
  | none => simpa [parse_google, hf] using h
  | some s =>
    simp only [parse_google, hf]
    exact nodup_collect googleMatch d _ h

/-- The invariant carried through the Numpy loop: a live state has
unique keys. -/
def numpyInv : Option (Option Nat × Dict) → Prop
  | none => True
  | some x => (dictKeys x.2).Nodup

/-- Each Numpy loop iteration preserves the invariant. -/
theorem numpyStep_inv (lines : List String) {st : Option (Option Nat × Dict)} (idx : Nat)
    (h : numpyInv st) : numpyInv (numpyStep lines st idx) := by
  cases st with
  | none => simp [numpyStep, numpyInv]
  | some x =>
    obtain ⟨start, d⟩ := x
    have hd : (dictKeys d).Nodup := h
    unfold numpyStep
    dsimp only
    split
    · exact hd
    · cases start with
      | none =>
        dsimp only
        split
        · exact hd
        · exact hd
      | some s =>
        dsimp only
        split
        · split
          · trivial
          · exact nodup_collect numpyMatch d _ hd
        · split
          · split
            · trivial
            · exact nodup_collect numpyMatch d _ hd
          · exact hd

/-- `_parse_numpy` produces unique keys when it returns. -/
theorem nodup_parse_numpy (lines : List String) {d : Dict}
    (h : parse_numpy lines = some d) : (dictKeys d).Nodup := by
  unfold parse_numpy at h
  have hinv := foldl_inv numpyInv (numpyStep lines)
    (fun a b ha => numpyStep_inv lines b ha)
    (List.range lines.length) (some (none, [])) (by simp [numpyInv, dictKeys])
  rcases hf : (List.range lines.length).foldl (numpyStep lines) (some (none, [])) with _ | ⟨st, dd⟩
  · rw [hf] at h
    simp at h
  · rw [hf] at h hinv
    cases st with
    | some s =>
      simp only [Option.some.injEq] at h
      rw [← h]
      exact nodup_collect numpyMatch dd _ hinv
    | none =>
      simp only [Option.some.injEq] at h
      rw [← h]
      exact hinv

/-- The ReST loop preserves key uniqueness. -/
theorem nodup_restGo :
    ∀ (ls : List String) (d : Dict) (cur : List String),
    (dictKeys d).Nodup → (dictKeys (restGo d cur ls)).Nodup := by
  intro ls
  induction ls with
  | nil => intro d cur h; exact nodup_terminate cur h
  | cons a t ih =>
    intro d cur h
    cases ha : restMatch a with
    | none =>
      simp only [restGo, ha]
      exact ih d (cur ++ [pyStrip a]) h
    | some p =>
      obtain ⟨cat, name, desc⟩ := p
      simp only [restGo, ha]
      split
      · exact ih _ _ (nodup_terminate cur h)
      · exact ih _ _ (nodup_terminate cur h)

/-- Every scanner produces unique keys. -/
theorem nodup_runScanner {st : Docstyle} {ls : List String} {d : Dict}
    (h : runScanner st ls = some d) : (dictKeys d).Nodup := by
  cases st with
  | google =>
    simp only [runScanner, Option.some.injEq] at h
    rw [← h]
    exact nodup_parse_google ls
  | numpy => exact nodup_parse_numpy ls h
  | reST =>
    simp only [runScanner, Option.some.injEq] at h
    rw [← h]
    exact nodup_restGo ls [] [] (by simp [dictKeys])

/-! ## Lookup lemmas for the merge step -/

/-- Looking up the inserted key. -/
theorem dictLookup_insert_self (d : Dict) (k v : String) :
    dictLookup (dictInsert d k v) k = some v := by
  induction d with
  | nil => simp [dictInsert, dictLookup]
  | cons p rest ih =>
    obtain ⟨k', v'⟩ := p
    by_cases hk : k' = k
    · subst hk
      simp [dictInsert, dictLookup]
    · simp [dictInsert, hk, dictLookup, ih]

/-- Inserting another key does not change a lookup. -/
theorem dictLookup_insert_ne (d : Dict) {k n : String} (v : String) (h : ¬(k = n)) :
    dictLookup (dictInsert d k v) n = dictLookup d n := by
  induction d with
  | nil => simp [dictInsert, dictLookup, h]
  | cons p rest ih =>
    obtain ⟨k', v'⟩ := p
    by_cases hk : k' = k
    · subst hk
      simp [dictInsert, dictLookup, h]
    · simp [dictInsert, hk, dictLookup, ih]

/-- Updating with keys that avoid n does not change a lookup of n. -/
theorem dictLookup_update_not_mem :
    ∀ (d2 d1 : Dict) {n : String}, n ∉ dictKeys d2 →
    dictLookup (dictUpdate d1 d2) n = dictLookup d1 n := by
  intro d2
  induction d2 with
  | nil => intro d1 n _; rfl
  | cons p rest ih =>
    intro d1 n h
    obtain ⟨k, v⟩ := p
    have hnk : ¬(n = k) := by
      intro he
      exact h (by simp [dictKeys, he])
    have hnr : n ∉ dictKeys rest := by
      intro he
      exact h (by simp [dictKeys, he])
    show dictLookup (dictUpdate (dictInsert d1 k v) rest) n = dictLookup d1 n
    rw [ih (dictInsert d1 k v) hnr]
    exact dictLookup_insert_ne d1 v (fun he => hnk he.symm)

/-- After `d1.update(d2)` every key of d2 maps to its d2 value (d2
being built by the scanners, its keys are unique). -/
theorem dictLookup_update_right :
    ∀ (d2 d1 : Dict) {n v : String}, (dictKeys d2).Nodup → dictLookup d2 n = some v →
    dictLookup (dictUpdate d1 d2) n = some v := by
  intro d2
  induction d2 with
  | nil => intro d1 n v _ h; simp [dictLookup] at h
  | cons p rest ih =>
    intro d1 n v hnd h
    obtain ⟨k, v'⟩ := p
    have hnd1 : k ∉ dictKeys rest := by
      have := List.nodup_cons.mp (by simpa [dictKeys] using hnd)
      exact this.1
    have hnd2 : (dictKeys rest).Nodup := by
      have := List.nodup_cons.mp (by simpa [dictKeys] using hnd)
      exact this.2
    by_cases hk : k = n
    · subst hk
      have hv : v' = v := by simpa [dictLookup] using h
      subst hv
      show dictLookup (dictUpdate (dictInsert d1 k v') rest) k = some v'
      rw [dictLookup_update_not_mem rest (dictInsert d1 k v') hnd1]
      exact dictLookup_insert_self d1 k v'
    · have h' : dictLookup rest n = some v := by simpa [dictLookup, hk] using h
      exact ih (dictInsert d1 k v') hnd2 h'

/-! ## Lemmas about style detection -/

/-- A fingerprint that holds right after some newline is found by the
search. -/
theorem containsAfterNl_concat (p : List Char → Bool) :
    ∀ (xs ys : List Char), p ys = true → containsAfterNl p (xs ++ '\n' :: ys) = true := by
  intro xs ys h
  induction xs with
  | nil => simp [containsAfterNl, h]
  | cons c t ih => simp [containsAfterNl, ih]

/-- `[\t ]*` absorbs a run of tabs and spaces. -/
theorem dropWsTS_ws_append (ws zs : List Char) (h : ∀ c ∈ ws, wsTabSpace c = true) :
    dropWsTS (ws ++ zs) = dropWsTS zs := by
  induction ws with
  | nil => rfl
  | cons c t ih =>
    unfold dropWsTS
    rw [List.cons_append, List.dropWhile_cons, if_pos (by simp [h c (List.mem_cons_self c t)])]
    exact ih (fun x hx => h x (List.mem_cons_of_mem c hx))

/-- `[\t ]*` stops at a character that is neither a tab nor a space. -/
theorem dropWsTS_cons_not {c : Char} (cs : List Char) (h : wsTabSpace c = false) :
    dropWsTS (c :: cs) = c :: cs := by
  unfold dropWsTS
  rw [List.dropWhile_cons, if_neg (by simp [h])]

/-- A case-insensitive literal consumes exactly the characters that
lower to it. -/
theorem matchCI_of_mapLower :
    ∀ (xs z lit : List Char), xs.map Char.toLower = lit → matchCI lit (xs ++ z) = some z := by
  intro xs
  induction xs with
  | nil =>
    intro z lit h
    rw [← h]
    rfl
  | cons x t ih =>
    intro z lit h
    rw [← h]
    simp only [List.map_cons, List.cons_append, matchCI, if_pos rfl]
    exact ih z (t.map Char.toLower) rfl

/-- A character that lowers to the letter p is neither a tab nor a
space. -/
theorem toLower_p_not_ws {c : Char} (h : Char.toLower c = 'p') : wsTabSpace c = false := by
  by_contra hb
  have hb2 : wsTabSpace c = true := by
    revert hb
    cases wsTabSpace c <;> simp
  have hc : c = ' ' ∨ c = '\t' := by simpa [wsTabSpace] using hb2
  rcases hc with rfl | rfl
  · exact absurd h (by decide)
  · exact absurd h (by decide)

/-- The Numpy fingerprint holds right after the newline preceding a
tab-or-space indented line whose letters lower to "parameters",
followed by a line that starts with optional tabs or spaces and a
dash. -/
theorem numpyFingerAt_header (ws1 p ws2 rest : List Char)
    (h1 : ∀ c ∈ ws1, wsTabSpace c = true)
    (h2 : ∀ c ∈ ws2, wsTabSpace c = true)
    (hp : p.map Char.toLower = "parameters".data) :
    numpyFingerAt (ws1 ++ (p ++ '\n' :: (ws2 ++ '-' :: rest))) = true := by
  cases p with
  | nil => exact absurd hp.symm (by decide)
  | cons c0 p2 =>
    have hd : "parameters".data = 'p' :: "arameters".data := by decide
    have hc0 : Char.toLower c0 = 'p' := by
      have h3 := hp.trans hd
      simp only [List.map_cons, List.cons.injEq] at h3
      exact h3.1
    have hm := matchCI_of_mapLower (c0 :: p2) ('\n' :: (ws2 ++ '-' :: rest)) "parameters".data hp
    unfold numpyFingerAt
    rw [dropWsTS_ws_append ws1 _ h1]
    simp only [List.cons_append] at hm ⊢
    rw [dropWsTS_cons_not _ (toLower_p_not_ws hc0), hm]
    dsimp only
    rw [dropWsTS_ws_append ws2 _ h2, dropWsTS_cons_not rest (by decide)]
    simp

/-! ## The claims -/

/-- Claim C1, counterexample: for a callback whose documentation is a
single summary line and that has no nested group documentation, the
claim predicts a MissingDocumentation failure, but `extract` returns
the empty map (the source returns `kwargs` as soon as the line list
after the summary is empty, and only raises when `inspect.getdoc`
returned nothing at all; the repository test
test_when_only_description_in_docstring pins this behaviour). -/
theorem c1_one_line_summary_counterexample :
    extract ⟨some "Meow description.", none⟩ none = .ok []
    ∧ ¬ extract ⟨some "Meow description.", none⟩ none = .error .missingDocumentation := by
  constructor
  · decide
  · decide

/-- Claim C1 (amended): for every callback whose documentation is a
single summary line (non-empty, newline-free) and that has no nested
group documentation, `extract` returns the empty map; the
MissingDocumentation failure occurs for a callback with no
documentation text at all and nothing seeded from a group. -/
theorem c1_one_line_summary_amended (s : String) (hs : ¬ s = "")
    (h : ∀ c ∈ s.data, ¬ c = '\n') :
    extract ⟨some s, none⟩ none = .ok []
    ∧ extract ⟨none, none⟩ none = .error .missingDocumentation := by
  constructor
  · have hsplit := pySplitlines_single s hs h
    simp [extract, seedKwargs, hs, hsplit]
  · decide

/-- Witness for C1 at the summary text of the repository test. -/
theorem c1_one_line_summary_witness :
    extract ⟨some "Meow description.", none⟩ none = .ok []
    ∧ extract ⟨none, none⟩ none = .error .missingDocumentation :=
  c1_one_line_summary_amended "Meow description." (by decide) (by decide)

/-- Claim C4, counterexample: a text with a line whose lower-cased
strip is exactly "other parameters" immediately followed by a line of
dashes, and on which the Google fingerprint fails, is classified as
no style at all rather than Numpy: the compiled fingerprint
`\n[\t ]*parameters\n[\t ]*-+` has no room for the word other, so the
claim fails for the "other parameters" header it includes. -/
theorem c4_other_parameters_counterexample :
    ((pySplitlines "Summary.\n\nOther Parameters\n----------\nfoo").getD 2 ""
        = "Other Parameters"
      ∧ pyStrip (pyLower "Other Parameters") = "other parameters"
      ∧ isDashRow ((pySplitlines "Summary.\n\nOther Parameters\n----------\nfoo").getD 3 "")
        = true
      ∧ searchGoogleL "Summary.\n\nOther Parameters\n----------\nfoo".data = false)
    ∧ get_docstyle "Summary.\n\nOther Parameters\n----------\nfoo" = none := by
  constructor
  · decide
  · decide

/-- Claim C4 (amended): detection classifies a text as Numpy whenever
some line after the first consists of optional tabs or spaces followed
exactly by the word parameters in any letter case, and the next line
starts with optional tabs or spaces and a dash, provided the Google
fingerprint did not match; a header reading other parameters is not a
Numpy fingerprint (second conjunct). -/
theorem c4_numpy_fingerprint_amended (a ws1 p ws2 rest : List Char)
    (h1 : ∀ c ∈ ws1, wsTabSpace c = true)
    (h2 : ∀ c ∈ ws2, wsTabSpace c = true)
    (hp : p.map Char.toLower = "parameters".data)
    (hg : searchGoogleL (a ++ '\n' :: (ws1 ++ (p ++ '\n' :: (ws2 ++ '-' :: rest)))) = false) :
    getDocstyleCore (a ++ '\n' :: (ws1 ++ (p ++ '\n' :: (ws2 ++ '-' :: rest)))) = some .numpy
    ∧ get_docstyle "Summary.\n\nOther Parameters\n----------\nfoo" = none := by
  constructor
  · have hat := numpyFingerAt_header ws1 p ws2 rest h1 h2 hp
    have hn := containsAfterNl_concat numpyFingerAt a _ hat
    simp only [getDocstyleCore, searchNumpyL] at *
    simp [hg, hn]
  · decide

/-- Witness for C4 at a concrete Parameters header. -/
theorem c4_numpy_fingerprint_witness :
    getDocstyleCore ("Sum.".data ++ '\n' ::
        ([] ++ ("Parameters".data ++ '\n' :: ([] ++ '-' :: "---------\nfoo : int".data))))
      = some .numpy
    ∧ get_docstyle "Summary.\n\nOther Parameters\n----------\nfoo" = none :=
  c4_numpy_fingerprint_amended "Sum.".data [] "Parameters".data [] "---------\nfoo : int".data
    (by decide) (by decide) (by decide) (by decide)

/-- Claim C5, counterexample: on the ReST scenario text the claim
predicts exactly the two keys cat and pan, but the run also contains
an entry keyed by the empty string: the blank line before the first
field is buffered as a stripped continuation fragment and flushed as
an entry name by the first field line. -/
theorem c5_rest_scenario_counterexample :
    extract ⟨some "Summary.\n\n:param cat: The user.\n:type cat: X\n:param pan: The channel.\n",
        none⟩ none
      = .ok [("", ""), ("cat", "The user."), ("pan", "The channel.")]
    ∧ dictLookup [("", ""), ("cat", "The user."), ("pan", "The channel.")] "" = some "" := by
  constructor
  · decide
  · decide

/-- Claim C5 (amended): scanning the ReST scenario text via `extract`
returns the map whose entries are the empty string mapped to the empty
string, cat mapped to The user., and pan mapped to The channel. — the
claimed cat and pan entries plus one spurious empty-string entry. -/
theorem c5_rest_scenario_amended :
    extract ⟨some "Summary.\n\n:param cat: The user.\n:type cat: X\n:param pan: The channel.\n",
        none⟩ none
      = .ok [("", ""), ("cat", "The user."), ("pan", "The channel.")]
    ∧ dictLookup [("", ""), ("cat", "The user."), ("pan", "The channel.")] "cat"
        = some "The user."
    ∧ dictLookup [("", ""), ("cat", "The user."), ("pan", "The channel.")] "pan"
        = some "The channel." := by
  refine ⟨by decide, by decide, by decide⟩

/-- Claim C9: style detection applies the fingerprints in the fixed
order Google, Numpy, ReST and returns the first that matches; in
particular a text carrying both the Google header fingerprint and the
ReST field fingerprint is classified Google. -/
theorem c9_detection_order (s : String) :
    (searchGoogleL s.data = true → searchRestL s.data = true →
      get_docstyle s = some .google)
    ∧ (get_docstyle s = some .numpy → searchGoogleL s.data = false)
    ∧ (get_docstyle s = some .reST →
        searchGoogleL s.data = false ∧ searchNumpyL s.data = false)
    ∧ (get_docstyle s = none ↔
        searchGoogleL s.data = false ∧ searchNumpyL s.data = false
          ∧ searchRestL s.data = false) := by
  unfold get_docstyle getDocstyleCore
  cases hg : searchGoogleL s.data <;> cases hn : searchNumpyL s.data
    <;> cases hr : searchRestL s.data <;> simp

/-- Witness for C9 at a text containing both an Args header and a
ReST param field. -/
theorem c9_detection_order_witness :
    searchGoogleL "Sum.\nArgs:\n    a: x\n:param b: y\n".data = true
    ∧ get_docstyle "Sum.\nArgs:\n    a: x\n:param b: y\n" = some .google :=
  ⟨by decide,
    (c9_detection_order "Sum.\nArgs:\n    a: x\n:param b: y\n").1 (by decide) (by decide)⟩

/-- Claim C2, counterexample: a named Numpy section squashed directly
against a following dash-underlined header (Returns) does contribute
entries of the following header and its section to the returned map:
the header name matches the entry pattern and is flushed as the key
Returns with the dash row as its description, and the following
section contributes a further entry, against the claim that no such
line contributes to any entry. -/
theorem c2_squashed_header_counterexample :
    parse_numpy ["Parameters", "----------", "foo", "    desc", "Returns", "-------",
        "yellow : meow", "    Nom"]
      = some [("foo", "desc"), ("Returns", "-------"), ("yellow", "Nom")]
    ∧ dictLookup [("foo", "desc"), ("Returns", "-------"), ("yellow", "Nom")] "Returns"
      = some "-------" := by
  constructor
  · decide
  · decide

/-- Claim C2 (amended): with no blank line before the following
dash-underlined header, the Numpy scanner does not end the section at
the header; the header lines are scanned as ordinary section lines.
When the header name is a single word it matches the entry pattern, so
the open entry description does stop at the boundary, but the header
and its section seed spurious entries (first conjunct); when the
header name is not a single word (Other Parameters) its lines are
absorbed into the open entry description, which continues past the
header (second conjunct). -/
theorem c2_squashed_header_amended :
    (parse_numpy ["Parameters", "----------", "echo", "    nyaa", "Raises", "------",
        "RuntimeError : meow", "    Voo"]
      = some [("echo", "nyaa"), ("Raises", "------"), ("RuntimeError", "Voo")])
    ∧ (parse_numpy ["Parameters", "----------", "bar", "    meow", "Other Parameters",
        "----------------", "go", "    home"]
      = some [("bar", "meow Other Parameters ----------------"), ("go", "home")]) := by
  constructor
  · decide
  · decide

/-- Claim C3, counterexample: after a plain blank line that no
dash-only row follows, the section does not end: the blank line and
the trailing prose are buffered as continuation fragments of the open
entry, so the prose does contribute to an entry of the returned map,
against case b of the claim. -/
theorem c3_blank_line_counterexample :
    parse_numpy ["Parameters", "----------", "foo", "    desc", "", "Trailing prose."]
      = some [("foo", "desc  Trailing prose.")] := by
  decide

/-- Claim C3 (amended): a Numpy section ends (a) right before the
blank line that sits two positions ahead of another dash-only row — a
header pair — (first conjunct), or (b) right before a completely empty
line directly above a dash-only row (second conjunct); when no
dash-only row follows, a blank line does not end the section, which
runs to the end of input and absorbs later lines into the open entry
(third conjunct). -/
theorem c3_section_end_amended :
    (parse_numpy ["Parameters", "----------", "meow", "    chocolate", "", "Returns",
        "-------", "yellow : meow", "    Nom"]
      = some [("meow", "chocolate")])
    ∧ (parse_numpy ["Parameters", "----------", "zulu", "    nyan", "", "-----------",
        "after", "    junk"]
      = some [("zulu", "nyan")])
    ∧ (parse_numpy ["Parameters", "----------", "pan", "    waf", "", "More prose"]
      = some [("pan", "waf  More prose")]) := by
  refine ⟨by decide, by decide, by decide⟩

/-- Claim C6: when the callback documentation has detail lines beyond
the summary, no fingerprint matches it and no override is given,
`extract` fails with UndeterminedStyle exactly when step 1 seeded no
entries from the nested group; when entries were seeded, the callback
text is skipped and the seeded map is returned. -/
theorem c6_undetermined_style (cb : Callback) (kw : Dict) (ds : String)
    (h1 : seedKwargs cb none = some kw)
    (h2 : cb.doc = some ds)
    (h3 : ¬ ds = "")
    (h4 : ¬ (pySplitlines ds).drop 1 = [])
    (h5 : get_docstyle ds = none) :
    (extract cb none = .error .undeterminedStyle ↔ kw = [])
    ∧ (¬ kw = [] → extract cb none = .ok kw) := by
  have h4t : ¬ (pySplitlines ds).tail = [] := by simpa [List.drop_one] using h4
  have he : extract cb none = if kw = [] then .error .undeterminedStyle else .ok kw := by
    simp [extract, h1, h2, h3, h4t, resolveStyle, h5]
  constructor
  · rw [he]
    by_cases hk : kw = []
    · simp [hk]
    · simp [hk]
  · intro hk
    rw [he, if_neg hk]

/-- Witness for C6: a seeded group map is returned when the callback
text has an undetectable style, and with no group the same text is
fatal. -/
theorem c6_undetermined_style_witness :
    extract ⟨some "Sum.\n\nJust prose here.", some "Meow.\n\nArgs:\n    cat: neko"⟩ none
      = .ok [("cat", "neko")]
    ∧ extract ⟨some "Sum.\n\nJust prose here.", none⟩ none = .error .undeterminedStyle :=
  ⟨(c6_undetermined_style ⟨some "Sum.\n\nJust prose here.", some "Meow.\n\nArgs:\n    cat: neko"⟩
      [("cat", "neko")] "Sum.\n\nJust prose here."
      (by decide) rfl (by decide) (by decide) (by decide)).2 (by decide),
   (c6_undetermined_style ⟨some "Sum.\n\nJust prose here.", none⟩
      [] "Sum.\n\nJust prose here."
      (by decide) rfl (by decide) (by decide) (by decide)).1.mpr rfl⟩

/-- Claim C7: when the group documentation seeded the map and the
callback documentation is scanned with a determined style, the result
is the seeded map updated by the scanned one, and on every name the
scanned entry wins: the callback entry overwrites the group entry. -/
theorem c7_callback_overwrites_group (cb : Callback) (kw d2 : Dict) (ds : String)
    (st : Docstyle)
    (h1 : seedKwargs cb none = some kw)
    (h2 : cb.doc = some ds)
    (h3 : ¬ ds = "")
    (h4 : ¬ (pySplitlines ds).drop 1 = [])
    (h5 : get_docstyle ds = some st)
    (h6 : runScanner st ((pySplitlines ds).drop 1) = some d2) :
    extract cb none = .ok (dictUpdate kw d2)
    ∧ ∀ n v, dictLookup d2 n = some v → dictLookup (dictUpdate kw d2) n = some v := by
  have h4t : ¬ (pySplitlines ds).tail = [] := by simpa [List.drop_one] using h4
  have h6t : runScanner st (pySplitlines ds).tail = some d2 := by
    simpa [List.drop_one] using h6
  constructor
  · simp [extract, h1, h2, h3, h4t, resolveStyle, h5, h6t]
  · intro n v hl
    exact dictLookup_update_right d2 kw (nodup_runScanner h6) hl

/-- Witness for C7: both the group and the callback document cat; the
callback description wins. -/
theorem c7_callback_overwrites_group_witness :
    extract ⟨some "Sum.\n\nArgs:\n    cat: own desc",
        some "Meow.\n\nArgs:\n    cat: group desc"⟩ none
      = .ok (dictUpdate [("cat", "group desc")] [("cat", "own desc")])
    ∧ dictLookup (dictUpdate [("cat", "group desc")] [("cat", "own desc")]) "cat"
      = some "own desc" :=
  ⟨(c7_callback_overwrites_group
      ⟨some "Sum.\n\nArgs:\n    cat: own desc", some "Meow.\n\nArgs:\n    cat: group desc"⟩
      [("cat", "group desc")] [("cat", "own desc")] "Sum.\n\nArgs:\n    cat: own desc" .google
      (by decide) rfl (by decide) (by decide) (by decide) (by decide)).1,
   (c7_callback_overwrites_group
      ⟨some "Sum.\n\nArgs:\n    cat: own desc", some "Meow.\n\nArgs:\n    cat: group desc"⟩
      [("cat", "group desc")] [("cat", "own desc")] "Sum.\n\nArgs:\n    cat: own desc" .google
      (by decide) rfl (by decide) (by decide) (by decide) (by decide)).2
     "cat" "own desc" (by decide)⟩

/-- Claim C8: for the collector shared by the Google and Numpy
scanners (first conjunct, for any entry matcher) and for the ReST
scanner loop (second conjunct), an entry followed by N contiguous
non-matching lines gets as description the space-joined
individually-stripped text of those lines, preceded by the stripped
trailing fragment of the entry line when that is non-empty. -/
theorem c8_multiline_join :
    (∀ (m : String → Option (String × Option String)) (d : Dict) (e : String)
        (name : String) (extra : Option String) (cs : List String),
      ¬ cs = [] → (∀ l ∈ cs, m l = none) → m e = some (name, extra) →
      collect m d (e :: cs)
        = dictInsert d name (joinSpaces (descSeed extra ++ cs.map pyStrip)))
    ∧ (∀ (d : Dict) (e name desc : String) (cs : List String),
      ¬ cs = [] → (∀ l ∈ cs, restMatch l = none) →
      restMatch e = some ("param", name, desc) →
      restGo d [] (e :: cs)
        = dictInsert d name (joinSpaces (descSeed (some desc) ++ cs.map pyStrip))) := by
  constructor
  · intro m d e name extra cs _ hcs hme
    unfold collect
    simp only [collectGo, hme]
    rw [collectGo_all_none m cs hcs (terminate_line d []) (entrySeed name extra)]
    simp [terminate_line, entrySeed]
  · intro d e name desc cs _ hcs hme
    simp only [restGo, hme, if_pos]
    rw [restGo_all_none cs hcs (terminate_line d []) (entrySeed name (some desc))]
    simp [terminate_line, entrySeed]

/-- Witness for C8: a Google entry with two continuation lines and a
ReST entry with one continuation line. -/
theorem c8_multiline_join_witness :
    collect googleMatch [] ["meow: start frag", "    second line", "    third line"]
      = dictInsert [] "meow"
          (joinSpaces (descSeed (some " start frag")
            ++ ["    second line", "    third line"].map pyStrip))
    ∧ restGo [] [] [":param cat: first", "    more text"]
      = dictInsert [] "cat"
          (joinSpaces (descSeed (some " first") ++ ["    more text"].map pyStrip)) :=
  ⟨(c8_multiline_join).1 googleMatch [] "meow: start frag" "meow" (some " start frag")
      ["    second line", "    third line"] (by decide) (by decide) (by decide),
   (c8_multiline_join).2 [] ":param cat: first" "cat" " first" ["    more text"]
      (by decide) (by decide) (by decide)⟩

/-- Claim C10: when one or more non-matching lines precede the first
matching line of a scanned section, the collector flushes them as a
spurious entry keyed by the stripped text of the first stray line,
with the space-joined stripped remaining strays as description (first
conjunct, for any entry matcher); in particular the ReST scanner on a
detail block that starts with a blank line before the first param
field yields an entry keyed by the empty string (second conjunct). -/
theorem c10_stray_lines_entry :
    (∀ (m : String → Option (String × Option String)) (d : Dict) (s0 : String)
        (ss : List String) (e : String) (name : String) (extra : Option String)
        (rest : List String),
      (∀ l ∈ s0 :: ss, m l = none) → m e = some (name, extra) →
      collect m d (s0 :: (ss ++ e :: rest))
        = collectGo m (dictInsert d (pyStrip s0) (joinSpaces (ss.map pyStrip)))
            (entrySeed name extra) rest)
    ∧ parse_rest ["", ":param cat: The user.", ":type cat: X", ":param pan: The channel."]
      = [("", ""), ("cat", "The user."), ("pan", "The channel.")] := by
  constructor
  · intro m d s0 ss e name extra rest hno hme
    unfold collect
    have h0 := collectGo_append_of_none m (s0 :: ss) hno d [] (e :: rest)
    simp only [List.cons_append, List.nil_append, List.map_cons] at h0
    rw [h0]
    simp only [collectGo, hme]
    simp [terminate_line, entrySeed]
  · decide

/-- Witness for C10: two stray lines ahead of a Google entry line. -/
theorem c10_stray_lines_entry_witness :
    collect googleMatch [] ("stray one" :: (["more stray"] ++ "cat: neko" :: []))
      = collectGo googleMatch
          (dictInsert [] (pyStrip "stray one") (joinSpaces (["more stray"].map pyStrip)))
          (entrySeed "cat" (some " neko")) [] :=
  (c10_stray_lines_entry).1 googleMatch [] "stray one" ["more stray"] "cat: neko" "cat"
    (some " neko") [] (by decide) (by decide)

end Tanchan
